import Mathlib

/-
Verification of the famly-downloader incremental-sync and download engine
(famly_downloader.py) against its specification.

Modelling conventions (shallow embedding):

* Timestamps.  The source stores `createdAt` as an ISO-8601 string and
  compares timestamps with Python string comparison; for ISO-8601 strings
  lexicographic order coincides with chronological order, so timestamps are
  modelled as `Nat`.  The value `0` stands for the Python falsy values
  (`None` or the empty string), which the source produces via
  `img.get("createdAt", "")` and tests with `if not older_than:`.
* Dict-shaped API payloads.  An image metadata dict is modelled by the
  `Image` structure; a field of type `Option _` is `none` when the key is
  absent (or, where the source only ever tests truthiness, when the value is
  falsy -- both behave identically downstream).
* The filesystem is an explicit association list `Disk`; the network is a
  function from URL to a `NetResp` describing what the transfer does.
* Python exceptions that escape a function are modelled by `Except.error`;
  a caught exception is an ordinary value.
* Thread-pool concurrency in `download_all`: the workers produce one
  `(bool, str)` outcome per submitted image and `as_completed` delivers them
  in an unspecified order, so the aggregation is modelled as a fold over an
  arbitrary permutation of the per-image outcomes.
-/

/-! ### Data model -/

/-- An inner image object such as `image["big"]` or `image["thumbnail"]`:
a (truthy) dict that may or may not carry a `"url"` key. -/
structure ImgRef where
  url? : Option String
deriving DecidableEq

/-- Image metadata dict as used by `FamlyDownloader`.  `createdAt = 0` means
the key is absent or empty; `big = none` / `thumbnail = none` mean the key is
absent or its value is falsy (the source tests `"big" in image and image["big"]`). -/
structure Image where
  imageId : Option String := none
  createdAt : Nat := 0
  big : Option ImgRef := none
  urlBig : Option String := none
  thumbnail : Option ImgRef := none
  url : Option String := none
deriving DecidableEq

/-- A child identity `{id, name}`. -/
structure Child where
  id : String
  name : String
deriving DecidableEq

/-- The JSON document stored in `.famly_credentials.json`.  Every field is
optional: `update_last_sync` operates on arbitrary JSON objects. -/
structure JsonCred where
  access_token : Option String := none
  children : Option (List Child) := none
  saved_at : Option Nat := none
  last_sync : Option (List (String × Nat)) := none
deriving DecidableEq

/-- The state of the credentials file on disk, distinguishing the failure
modes `load_cached_credentials` and `save_cached_credentials` handle:
missing file, `OSError` while reading, `json.JSONDecodeError`, or parsed JSON. -/
inductive CredFile where
  | absent
  | unreadable
  | invalidJson
  | json (d : JsonCred)
deriving DecidableEq

/-- Python truthiness of an optional string (`None` and `""` are falsy). -/
def truthyStr : Option String → Bool
  | none => false
  | some s => s ≠ ""

/-- Python truthiness of an optional list (`None` and `[]` are falsy). -/
def truthyChildren : Option (List Child) → Bool
  | none => false
  | some l => !l.isEmpty

/-! ### Credential store (`load_cached_credentials`, `save_cached_credentials`,
`update_last_sync`) -/

/-- `load_cached_credentials` (famly_downloader.py:54-79): returns the parsed
dict only when the file exists, parses, and has truthy `access_token` and
`children`; every failure mode is swallowed and reported as `None`.
Totality of this Lean function reflects that the source catches
`json.JSONDecodeError` and `OSError` and never raises. -/
def load_cached_credentials (file : CredFile) : Option JsonCred :=
  match file with
  | CredFile.absent => none
  | CredFile.unreadable => none
  | CredFile.invalidJson => none
  | CredFile.json d =>
    if truthyStr d.access_token && truthyChildren d.children then some d else none

/-- `save_cached_credentials` (famly_downloader.py:82-123): writes a fresh
credentials document; when `last_sync` is `None` it first re-reads the file on
disk and carries the existing `last_sync` mapping over (defaulting to `{}` when
the file is absent, unreadable, invalid JSON, or lacks the key).  The return
value is the JSON document written to disk. -/
def save_cached_credentials (file : CredFile) (access_token : String)
    (children : List Child) (last_sync : Option (List (String × Nat)))
    (now : Nat) : JsonCred :=
  let existing_last_sync : List (String × Nat) :=
    match last_sync with
    | some _ => []
    | none =>
      match file with
      | CredFile.json d => d.last_sync.getD []
      | _ => []
  { access_token := some access_token
    children := some children
    saved_at := some now
    last_sync := some (match last_sync with
      | some ls => ls
      | none => existing_last_sync) }

/-- Lookup in a Python-dict-as-association-list (`d.get(k)`). -/
def lookupAssoc : List (String × Nat) → String → Option Nat
  | [], _ => none
  | p :: t, k => if p.1 == k then some p.2 else lookupAssoc t k

/-- `d[k] = v` on a Python-dict-as-association-list: replace the existing
binding in place, otherwise append (dict keys are unique). -/
def setAssoc : List (String × Nat) → String → Nat → List (String × Nat)
  | [], k, v => [(k, v)]
  | p :: t, k, v => if p.1 == k then (k, v) :: t else p :: setAssoc t k v

/-- `update_last_sync` (famly_downloader.py:126-154): returns unchanged state
when the file is missing (early `return`) or unreadable/unparseable (the
`except` clause), otherwise writes the file back with
`data["last_sync"][child_id] = timestamp` (creating the `last_sync` key if
needed).  `store` is the parsed content of the file, `none` when missing or
unparseable. -/
def update_last_sync (store : Option JsonCred) (childId : String)
    (timestamp : Nat) : Option JsonCred :=
  match store with
  | none => none
  | some d => some { d with last_sync := some (setAssoc (d.last_sync.getD []) childId timestamp) }

/-! ### Claim C7 and C9 theorems -/

/-- C7: calling `save_cached_credentials` with `last_sync=None` while a
credentials file with existing `last_sync` entries is on disk writes a file
whose `last_sync` mapping equals the entries already present, while
`access_token`, `children` and `saved_at` are replaced by the new values. -/
theorem save_cached_credentials_preserves_last_sync
    (d : JsonCred) (entries : List (String × Nat)) (tok : String)
    (children : List Child) (now : Nat) (hls : d.last_sync = some entries) :
    save_cached_credentials (CredFile.json d) tok children none now =
      { access_token := some tok, children := some children,
        saved_at := some now, last_sync := some entries } := by
  simp only [save_cached_credentials, hls, Option.getD_some]

/-- Witness for C7 at a concrete file state. -/
theorem save_cached_credentials_preserves_last_sync_witness :
    save_cached_credentials
        (CredFile.json { access_token := some "old", children := some [⟨"c1", "Ada"⟩],
                         saved_at := some 10, last_sync := some [("c1", 42)] })
        "new" [⟨"c1", "Ada"⟩, ⟨"c2", "Max"⟩] none 99 =
      { access_token := some "new", children := some [⟨"c1", "Ada"⟩, ⟨"c2", "Max"⟩],
        saved_at := some 99, last_sync := some [("c1", 42)] } :=
  save_cached_credentials_preserves_last_sync _ [("c1", 42)] "new"
    [⟨"c1", "Ada"⟩, ⟨"c2", "Max"⟩] 99 rfl

/-- C9: for every degraded cache state -- file absent, unreadable (OSError),
invalid JSON, or parsed JSON missing the `access_token` or `children` field --
`load_cached_credentials` returns `none` (a cache miss).  The function is
total, reflecting that the source catches its I/O and parse errors. -/
theorem load_cached_credentials_miss :
    load_cached_credentials CredFile.absent = none ∧
    load_cached_credentials CredFile.unreadable = none ∧
    load_cached_credentials CredFile.invalidJson = none ∧
    (∀ d : JsonCred, d.access_token = none ∨ d.children = none →
      load_cached_credentials (CredFile.json d) = none) := by
  refine ⟨rfl, rfl, rfl, ?_⟩
  intro d h
  unfold load_cached_credentials
  rcases h with h | h <;> simp [h, truthyStr, truthyChildren]

/-- Witness for C9 on a concrete JSON document missing `access_token`. -/
theorem load_cached_credentials_miss_witness :
    load_cached_credentials
        (CredFile.json { children := some [⟨"c1", "Ada"⟩], saved_at := some 3 }) = none :=
  load_cached_credentials_miss.2.2.2
    { children := some [⟨"c1", "Ada"⟩], saved_at := some 3 } (Or.inl rfl)

/-! ### Paginated fetcher (`fetch_image_list`, `fetch_all_images`)

`fetch_image_list` (famly_downloader.py:320-346) performs one HTTP GET of
`/images/tagged?childId=..&limit=..[&olderThan=..]` and raises on HTTP errors.
It is abstracted as a function `server : Nat → Nat → Except String (List Image)`
taking the `olderThan` value (`0` = parameter omitted, the first page) and the
`limit`, returning the page or a raised transport/HTTP error. -/

/-- `a` is strictly newer than `b`: the descending-`createdAt` ordering of the
remote API. -/
def newerThan (a b : Image) : Prop :=
  b.createdAt < a.createdAt

/-- The truncation of one page performed by the `for img in batch:` loop in
`fetch_all_images` (famly_downloader.py:380-387): when `stop_at` is set, keep
the items strictly newer than `stop_at` up to the first item with
`createdAt <= stop_at`. -/
def truncPage (stopAt : Nat) (batch : List Image) : List Image :=
  if stopAt ≠ 0 then batch.takeWhile (fun i => decide (stopAt < i.createdAt)) else batch

/-- Whether the same loop set `reached_existing`: some item of the page has
`createdAt <= stop_at` (the loop breaks at the first one). -/
def reachedStop (stopAt : Nat) (batch : List Image) : Bool :=
  if stopAt ≠ 0 then batch.any (fun i => decide (i.createdAt ≤ stopAt)) else false

/-- The cursor for the next page: `older_than = last_image.get("createdAt")`
(famly_downloader.py:396-398) on the truncated batch.  The value `0` covers
both break conditions of the source: a falsy `createdAt` on the last item
(`if not older_than: break`), and -- only reachable when `batch_size = 0`, a
case no claim exercises -- an empty truncated batch, where the source would
raise `IndexError` at `batch[-1]`. -/
def nextCursor (l : List Image) : Nat :=
  (l.getLast?.map Image.createdAt).getD 0

/-- `fetch_all_images` (famly_downloader.py:348-407).  The `while True:` loop
is given explicit `fuel` (the source terminates only by the server's answers);
exhausted fuel returns the empty accumulation with `0` requests.  The second
`Nat` argument is the running `older_than` cursor (`0` = `None`).  The result
pairs the accumulated image list with the number of page requests performed.
`stopAt = 0` models `stop_at=None`.  An `Except.error` of the server (an HTTP
or transport exception of `fetch_image_list`) propagates unmodified. -/
def fetch_all_images (server : Nat → Nat → Except String (List Image))
    (batchSize stopAt : Nat) : Nat → Nat → Except String (List Image × Nat)
  | 0, _ => Except.ok ([], 0)
  | fuel + 1, olderThan =>
    match server olderThan batchSize with
    | Except.error e => Except.error e
    | Except.ok batch =>
      if batch.isEmpty then Except.ok ([], 1)
      else if reachedStop stopAt batch = true ∨ (truncPage stopAt batch).length < batchSize then
        Except.ok (truncPage stopAt batch, 1)
      else if nextCursor (truncPage stopAt batch) = 0 then
        Except.ok (truncPage stopAt batch, 1)
      else
        match fetch_all_images server batchSize stopAt fuel (nextCursor (truncPage stopAt batch)) with
        | Except.error e => Except.error e
        | Except.ok (rest, n) => Except.ok (truncPage stopAt batch ++ rest, n + 1)

/-! Helper lemmas about `truncPage`. -/

lemma mem_truncPage {stopAt : Nat} {batch : List Image} {i : Image}
    (h : i ∈ truncPage stopAt batch) : i ∈ batch := by
  unfold truncPage at h
  split at h
  · exact (List.takeWhile_sublist _).subset h
  · exact h

lemma truncPage_gt {stopAt : Nat} (hs : stopAt ≠ 0) {batch : List Image} {i : Image}
    (h : i ∈ truncPage stopAt batch) : stopAt < i.createdAt := by
  unfold truncPage at h
  rw [if_pos hs] at h
  have := List.mem_takeWhile_imp h
  simpa using this

lemma truncPage_pairwise {stopAt : Nat} {batch : List Image}
    (h : List.Pairwise newerThan batch) :
    List.Pairwise newerThan (truncPage stopAt batch) := by
  unfold truncPage
  split
  · exact List.Pairwise.sublist (List.takeWhile_sublist _) h
  · exact h

/-- A nonzero next-page cursor comes from the last item of the batch. -/
lemma nextCursor_eq {l : List Image} (h : nextCursor l ≠ 0) :
    ∃ last, l.getLast? = some last ∧ last.createdAt = nextCursor l := by
  unfold nextCursor at h ⊢
  cases hgl : l.getLast? with
  | none => rw [hgl] at h; simp at h
  | some last => exact ⟨last, rfl, rfl⟩

/-- In a strictly descending list the last element is a lower bound. -/
lemma getLast_le_of_pairwise :
    ∀ (l : List Image), List.Pairwise newerThan l →
      ∀ x, l.getLast? = some x → ∀ a ∈ l, x.createdAt ≤ a.createdAt := by
  intro l
  induction l with
  | nil => intro _ x hx; simp at hx
  | cons b t ih =>
    intro hp x hx a ha
    rcases List.pairwise_cons.mp hp with ⟨hb, ht⟩
    cases t with
    | nil =>
      simp at hx
      rcases List.mem_singleton.mp ha with rfl
      simp [hx]
    | cons c t' =>
      rw [List.getLast?_cons_cons] at hx
      have hxmem : x ∈ c :: t' := List.mem_of_getLast?_eq_some hx
      rcases List.mem_cons.mp ha with rfl | hat
      · exact Nat.le_of_lt (hb x hxmem)
      · exact ih ht x hx a hat

/-- Core invariant of the pagination loop: under the two server contracts
(every page strictly descending; a page requested with a nonzero `olderThan`
cursor only contains strictly older items -- the documented `olderThan`
semantics of the REST endpoint), every accumulation `fetch_all_images`
returns (1) contains only items strictly newer than a nonzero `stop_at`,
(2) is strictly descending, and (3) contains only items strictly older than a
nonzero starting cursor. -/
lemma fetch_all_images_invariant
    (server : Nat → Nat → Except String (List Image)) (batchSize stopAt : Nat)
    (H1 : ∀ t lim batch, server t lim = Except.ok batch → List.Pairwise newerThan batch)
    (H2 : ∀ t lim batch, server t lim = Except.ok batch → t ≠ 0 →
      ∀ i ∈ batch, i.createdAt < t) :
    ∀ fuel olderThan images n,
      fetch_all_images server batchSize stopAt fuel olderThan = Except.ok (images, n) →
      (stopAt ≠ 0 → ∀ i ∈ images, stopAt < i.createdAt) ∧
      List.Pairwise newerThan images ∧
      (olderThan ≠ 0 → ∀ i ∈ images, i.createdAt < olderThan) := by
  intro fuel
  induction fuel with
  | zero =>
    intro olderThan images n h
    unfold fetch_all_images at h
    rw [Except.ok.injEq, Prod.mk.injEq] at h
    rcases h with ⟨h1, -⟩
    subst h1
    refine ⟨?_, List.Pairwise.nil, ?_⟩ <;> simp
  | succ fuel ih =>
    intro olderThan images n h
    unfold fetch_all_images at h
    cases hs : server olderThan batchSize with
    | error e =>
      rw [hs] at h
      dsimp only at h
      exact absurd h (by simp)
    | ok batch =>
      rw [hs] at h
      dsimp only at h
      have hbatch_sorted := H1 olderThan batchSize batch hs
      have hbatch_older := H2 olderThan batchSize batch hs
      have htr_stop : stopAt ≠ 0 → ∀ i ∈ truncPage stopAt batch, stopAt < i.createdAt :=
        fun hs0 i hi => truncPage_gt hs0 hi
      have htr_sorted : List.Pairwise newerThan (truncPage stopAt batch) :=
        truncPage_pairwise hbatch_sorted
      have htr_older : olderThan ≠ 0 → ∀ i ∈ truncPage stopAt batch, i.createdAt < olderThan :=
        fun h0 i hi => hbatch_older h0 i (mem_truncPage hi)
      -- a single-page result satisfies all three clauses
      have single : ∀ m, (Except.ok (truncPage stopAt batch, m) :
            Except String (List Image × Nat)) = Except.ok (images, n) →
          (stopAt ≠ 0 → ∀ i ∈ images, stopAt < i.createdAt) ∧
          List.Pairwise newerThan images ∧
          (olderThan ≠ 0 → ∀ i ∈ images, i.createdAt < olderThan) := by
        intro m hm
        rw [Except.ok.injEq, Prod.mk.injEq] at hm
        rcases hm with ⟨h1, -⟩
        subst h1
        exact ⟨htr_stop, htr_sorted, htr_older⟩
      by_cases hemp : batch.isEmpty = true
      · rw [if_pos hemp] at h
        rw [Except.ok.injEq, Prod.mk.injEq] at h
        rcases h with ⟨h1, -⟩
        subst h1
        refine ⟨?_, List.Pairwise.nil, ?_⟩ <;> simp
      · rw [if_neg hemp] at h
        by_cases hstop : reachedStop stopAt batch = true ∨ (truncPage stopAt batch).length < batchSize
        · rw [if_pos hstop] at h
          exact single 1 h
        · rw [if_neg hstop] at h
          by_cases hc0 : nextCursor (truncPage stopAt batch) = 0
          · rw [if_pos hc0] at h
            exact single 1 h
          · rw [if_neg hc0] at h
            rcases nextCursor_eq hc0 with ⟨last, hlast, hlastc⟩
            cases hrec : fetch_all_images server batchSize stopAt fuel
                (nextCursor (truncPage stopAt batch)) with
            | error e =>
              rw [hrec] at h
              dsimp only at h
              exact absurd h (by simp)
            | ok p =>
              rcases p with ⟨rest, m⟩
              rw [hrec] at h
              dsimp only at h
              rw [Except.ok.injEq, Prod.mk.injEq] at h
              rcases h with ⟨h1, -⟩
              subst h1
              have hlast_mem : last ∈ truncPage stopAt batch :=
                List.mem_of_getLast?_eq_some hlast
              rcases ih (nextCursor (truncPage stopAt batch)) rest m hrec with ⟨ih1, ih2, ih3⟩
              have hrest_lt : ∀ i ∈ rest, i.createdAt < last.createdAt := by
                rw [hlastc]; exact ih3 hc0
              refine ⟨?_, ?_, ?_⟩
              · intro hs0 i hi
                rcases List.mem_append.mp hi with hi | hi
                · exact htr_stop hs0 i hi
                · exact ih1 hs0 i hi
              · rw [List.pairwise_append]
                refine ⟨htr_sorted, ih2, ?_⟩
                intro a ha b hb
                have ha1 : last.createdAt ≤ a.createdAt :=
                  getLast_le_of_pairwise _ htr_sorted last hlast a ha
                have hb1 : b.createdAt < last.createdAt := hrest_lt b hb
                exact Nat.lt_of_lt_of_le hb1 ha1
              · intro h0 i hi
                rcases List.mem_append.mp hi with hi | hi
                · exact htr_older h0 i hi
                · exact Nat.lt_trans (hrest_lt i hi) (htr_older h0 last hlast_mem)

/-! ### Claim C2: incremental fetch correctness -/

/-- C2: for every nonzero `stop_at`, whenever `fetch_all_images(stop_at=stop_at)`
returns, it returns only items whose `createdAt` is strictly greater than
`stop_at`, in strictly descending `createdAt` order, with no item returned
twice across pages.  Hypotheses: every server page is sorted in strictly
descending `createdAt` order (the claim's stated assumption), and a page
requested with the `olderThan` parameter contains only strictly older items
(the documented `older-than` semantics of the REST endpoint the cursor is
taken from). -/
theorem fetch_all_images_incremental
    (server : Nat → Nat → Except String (List Image))
    (batchSize stopAt fuel : Nat) (images : List Image) (n : Nat)
    (H1 : ∀ t lim batch, server t lim = Except.ok batch → List.Pairwise newerThan batch)
    (H2 : ∀ t lim batch, server t lim = Except.ok batch → t ≠ 0 →
      ∀ i ∈ batch, i.createdAt < t)
    (hstop : stopAt ≠ 0)
    (hrun : fetch_all_images server batchSize stopAt fuel 0 = Except.ok (images, n)) :
    (∀ i ∈ images, stopAt < i.createdAt) ∧
    List.Pairwise newerThan images ∧ images.Nodup := by
  rcases fetch_all_images_invariant server batchSize stopAt H1 H2 fuel 0 images n hrun with
    ⟨h1, h2, -⟩
  refine ⟨h1 hstop, h2, ?_⟩
  exact List.Pairwise.imp
    (fun hab heq => by rw [heq] at hab; exact Nat.lt_irrefl _ hab) h2

/-! Synthetic paginated source used by C6 and as concrete witness data. -/

/-- `mkDesc n`: `n` synthetic items with `createdAt` values `n, n-1, ..., 1`
(strictly descending, the newest first). -/
def mkDesc : Nat → List Image
  | 0 => []
  | n + 1 => { createdAt := n + 1 } :: mkDesc n

lemma mkDesc_mem : ∀ (n : Nat) (i : Image), i ∈ mkDesc n →
    1 ≤ i.createdAt ∧ i.createdAt ≤ n := by
  intro n
  induction n with
  | zero => intro i h; simp [mkDesc] at h
  | succ n ih =>
    intro i h
    rcases List.mem_cons.mp h with rfl | h
    · exact ⟨Nat.succ_le_succ (Nat.zero_le _), Nat.le_refl _⟩
    · rcases ih i h with ⟨h1, h2⟩
      exact ⟨h1, Nat.le_succ_of_le h2⟩

lemma mkDesc_sorted : ∀ n : Nat, List.Pairwise newerThan (mkDesc n) := by
  intro n
  induction n with
  | zero => exact List.Pairwise.nil
  | succ n ih =>
    refine List.pairwise_cons.mpr ⟨?_, ih⟩
    intro b hb
    have h2 := (mkDesc_mem n b hb).2
    show b.createdAt < n + 1
    omega

/-- A synthetic paginated source over 240 items (`createdAt` 240 down to 1),
honouring `olderThan` and `limit`: with `limit = 100` it serves pages of
sizes 100, 100, 40. -/
def syntheticServer (olderThan limit : Nat) : Except String (List Image) :=
  Except.ok
    (((mkDesc 240).filter
        (fun i => olderThan == 0 || decide (i.createdAt < olderThan))).take limit)

lemma syntheticServer_sorted : ∀ t lim batch,
    syntheticServer t lim = Except.ok batch → List.Pairwise newerThan batch := by
  intro t lim batch h
  unfold syntheticServer at h
  rw [Except.ok.injEq] at h
  subst h
  exact List.Pairwise.sublist
    ((List.take_sublist _ _).trans (List.filter_sublist _)) (mkDesc_sorted 240)

lemma syntheticServer_older : ∀ t lim batch,
    syntheticServer t lim = Except.ok batch → t ≠ 0 →
    ∀ i ∈ batch, i.createdAt < t := by
  intro t lim batch h ht i hi
  unfold syntheticServer at h
  rw [Except.ok.injEq] at h
  subst h
  have hmem := List.mem_of_mem_take hi
  have hp := (List.mem_filter.mp hmem).2
  simp only [Bool.or_eq_true, beq_iff_eq, decide_eq_true_eq] at hp
  rcases hp with hp | hp
  · exact absurd hp ht
  · exact hp

set_option maxRecDepth 100000 in
/-- Witness for C2: the incremental-fetch guarantees instantiated on the
synthetic 240-item source with `stop_at = 91`. -/
theorem fetch_all_images_incremental_witness :
    (∀ i ∈ (mkDesc 240).take 149, 91 < i.createdAt) ∧
    List.Pairwise newerThan ((mkDesc 240).take 149) ∧
    ((mkDesc 240).take 149).Nodup :=
  fetch_all_images_incremental syntheticServer 100 91 10 ((mkDesc 240).take 149) 2
    syntheticServer_sorted syntheticServer_older (by decide) (by rfl)

set_option maxRecDepth 100000 in
/-- C6: against the synthetic paginated source serving pages of sizes
[100, 100, 40] in strictly descending `createdAt` order, `fetch_all_images`
with `batch_size = 100` and `stop_at = 91` -- the `createdAt` of the
150th-newest item (`240 - 149`) -- returns exactly the 149 newest items and
performs exactly 2 page requests. -/
theorem fetch_all_images_synthetic_two_pages :
    fetch_all_images syntheticServer 100 91 10 0 =
      Except.ok ((mkDesc 240).take 149, 2) := by rfl

/-! ### Download engine (`_get_image_url`, `_generate_filename`,
`download_image`, `download_all`) -/

/-- The local output directory: filename → byte content.  `open(path, "wb")`
creates (or truncates) the file immediately; each chunk write appends. -/
structure Disk where
  files : List (String × List Nat)
deriving DecidableEq

/-- `filepath.exists()`. -/
def Disk.pathExists (d : Disk) (path : String) : Bool :=
  d.files.any (fun p => p.1 == path)

/-- Content under a path, if present. -/
def Disk.read? (d : Disk) (path : String) : Option (List Nat) :=
  (d.files.find? (fun p => p.1 == path)).map (fun p => p.2)

/-- Write (create or overwrite) a file. -/
def Disk.write (d : Disk) (path : String) (content : List Nat) : Disk :=
  ⟨(path, content) :: d.files.filter (fun p => p.1 != path)⟩

/-- Behaviour of one `session.get(url, stream=True)` transfer:
`httpError` -- the request or `raise_for_status()` raises before any file is
opened; `stream chunks none` -- the body is delivered as `chunks` and fully
written; `stream chunks (some (k, msg))` -- an exception with message `msg` is
raised while streaming, after the first `k` chunks were already written to the
open file. -/
inductive NetResp where
  | httpError (msg : String)
  | stream (chunks : List (List Nat)) (failAfter : Option (Nat × String))
deriving DecidableEq

/-- Result of one `download_image` call that did not propagate an exception:
the returned `(bool, str)` pair, the number of network requests issued, and
the resulting filesystem. -/
structure DownloadOutcome where
  ok : Bool
  msg : String
  netCalls : Nat
  disk : Disk
deriving DecidableEq

/-- `_get_image_url` (famly_downloader.py:829-849).  The source indexes
`image["big"]["url"]` / `image["thumbnail"]["url"]` without a guard, so a
present-and-truthy `big`/`thumbnail` object lacking the `url` key raises a
`KeyError` that propagates to the caller: that is the `Except.error` case. -/
def get_image_url (downloadBig : Bool) (image : Image) : Except String String :=
  match downloadBig, image.big with
  | true, some r =>
    match r.url? with
    | some u => Except.ok u
    | none => Except.error "KeyError: url"
  | _, _ =>
    match downloadBig, image.urlBig with
    | true, some u => Except.ok u
    | _, _ =>
      match image.thumbnail with
      | some r =>
        match r.url? with
        | some u => Except.ok u
        | none => Except.error "KeyError: url"
      | none => Except.ok (image.url.getD "")

/-- Stand-in for `datetime.fromisoformat(...).strftime("%Y-%m-%d_%H%M%S")` on
the `Nat` abstraction of ISO timestamps; the exact rendering is immaterial to
the claims, only that it is a fixed function of the timestamp. -/
def formatTimestamp (t : Nat) : String :=
  toString t

/-- `_generate_filename` (famly_downloader.py:851-878). -/
def generate_filename (image : Image) : String :=
  let image_id := image.imageId.getD "unknown"
  let date_str := if image.createdAt ≠ 0 then formatTimestamp image.createdAt else "unknown_date"
  let short_id := if image_id.length ≥ 8 then image_id.take 8 else image_id
  date_str ++ "_" ++ short_id ++ ".jpg"

/-- `download_image` (famly_downloader.py:880-914).  Steps, in source order:
select a URL (a `KeyError` here propagates -- it is raised outside the `try`),
fail fast on an empty URL, skip if the target file exists, else perform the
transfer with every exception inside the `try` caught and returned as
`(False, str(e))`.  The streaming failure case records the partial file the
source leaves behind: `open(filepath, "wb")` has already created the final
file and written the first `k` chunks when the exception hits. -/
def download_image (downloadBig : Bool) (net : String → NetResp) (image : Image)
    (disk : Disk) : Except String DownloadOutcome :=
  match get_image_url downloadBig image with
  | Except.error e => Except.error e
  | Except.ok url =>
    if url = "" then Except.ok ⟨false, "No URL available", 0, disk⟩
    else if disk.pathExists (generate_filename image) then
      Except.ok ⟨true, generate_filename image ++ " (skipped, exists)", 0, disk⟩
    else
      match net url with
      | NetResp.httpError e => Except.ok ⟨false, e, 1, disk⟩
      | NetResp.stream chunks none =>
        Except.ok ⟨true, generate_filename image, 1,
          disk.write (generate_filename image) chunks.flatten⟩
      | NetResp.stream chunks (some (k, e)) =>
        Except.ok ⟨false, e, 1,
          disk.write (generate_filename image) (chunks.take k).flatten⟩

/-- `pat` occurs as a contiguous substring of `l` (Python `pat in s`). -/
def hasSubstring (pat : List Char) : List Char → Bool
  | [] => pat.isEmpty
  | c :: rest => pat.isPrefixOf (c :: rest) || hasSubstring pat rest

/-- Python `"skipped" in result` style containment on strings. -/
def strContains (s pat : String) : Bool :=
  hasSubstring pat.data s.data

/-- The per-run counters of `download_all`. -/
structure Stats where
  success : Nat
  skipped : Nat
  failed : Nat
deriving DecidableEq

/-- One iteration of the `as_completed` aggregation loop in `download_all`
(famly_downloader.py:942-954): a `(success, result)` pair increments exactly
one of the three counters (`skipped` when the result message contains the
substring "skipped"). -/
def classifyOutcome (stats : Stats) (r : Bool × String) : Stats :=
  if r.1 = true then
    if strContains r.2 "skipped" = true then { stats with skipped := stats.skipped + 1 }
    else { stats with success := stats.success + 1 }
  else { stats with failed := stats.failed + 1 }

/-- `download_all` (famly_downloader.py:916-969), modelled at the aggregation
boundary: the thread pool produces one `(bool, str)` outcome per submitted
image and `as_completed` yields them in an unspecified order; `download_all`
folds the outcome sequence into the `stats` dict.  (If any worker's
`future.result()` re-raises, the source never returns -- the claims about the
returned counters are therefore conditioned on an outcome list existing.) -/
def download_all (outcomes : List (Bool × String)) : Stats :=
  outcomes.foldl classifyOutcome ⟨0, 0, 0⟩

lemma classifyOutcome_sum (s : Stats) (r : Bool × String) :
    (classifyOutcome s r).success + (classifyOutcome s r).skipped +
      (classifyOutcome s r).failed = s.success + s.skipped + s.failed + 1 := by
  unfold classifyOutcome
  by_cases h1 : r.1 = true
  · rw [if_pos h1]
    by_cases h2 : strContains r.2 "skipped" = true
    · rw [if_pos h2]; dsimp only; omega
    · rw [if_neg h2]; dsimp only; omega
  · rw [if_neg h1]; dsimp only; omega

lemma download_all_foldl_sum : ∀ (outcomes : List (Bool × String)) (s : Stats),
    (outcomes.foldl classifyOutcome s).success +
      (outcomes.foldl classifyOutcome s).skipped +
      (outcomes.foldl classifyOutcome s).failed =
    s.success + s.skipped + s.failed + outcomes.length := by
  intro outcomes
  induction outcomes with
  | nil => intro s; simp
  | cons r rs ih =>
    intro s
    simp only [List.foldl_cons, List.length_cons]
    rw [ih (classifyOutcome s r), classifyOutcome_sum]
    omega

/-- C1: for every input image list, whenever `download_all` returns, the
returned counters satisfy `success + skipped + failed = len(images)`: each
worker outcome is counted exactly once in exactly one bucket, and the counts
are independent of the (unspecified) completion order, modelled as an
arbitrary permutation of the per-image outcomes. -/
theorem download_all_counts_complete
    (images : List Image) (result : Image → Bool × String)
    (outcomes : List (Bool × String))
    (hperm : outcomes.Perm (images.map result)) :
    (download_all outcomes).success + (download_all outcomes).skipped +
      (download_all outcomes).failed = images.length := by
  unfold download_all
  rw [download_all_foldl_sum outcomes ⟨0, 0, 0⟩]
  simp [hperm.length_eq]

/-- Witness for C1: two images, one failing and one succeeding, aggregated in
the reversed completion order. -/
theorem download_all_counts_complete_witness :
    (download_all [(false, "timeout"), (true, "5_abcdefgh.jpg")]).success +
      (download_all [(false, "timeout"), (true, "5_abcdefgh.jpg")]).skipped +
      (download_all [(false, "timeout"), (true, "5_abcdefgh.jpg")]).failed = 2 :=
  download_all_counts_complete
    [{ createdAt := 5, imageId := some "abcdefgh" }, { createdAt := 0 }]
    (fun i => if i.createdAt = 5 then (true, "5_abcdefgh.jpg") else (false, "timeout"))
    [(false, "timeout"), (true, "5_abcdefgh.jpg")] (by decide)

/-! ### Claim C3: partial files on mid-stream failure -/

/-- An ordinary image with a plain URL, used as the C3 failing input. -/
def c3Image : Image :=
  { imageId := some "abcdefgh", createdAt := 5, url := some "http-img" }

/-- A transfer that passes `raise_for_status()` and then raises after the
first of two chunks has been written. -/
def c3Net : String → NetResp :=
  fun _ => NetResp.stream [[1, 2, 3], [4, 5, 6]] (some (1, "connection reset"))

/-- C3 (code bug): `download_image` streams the response into the final
target path; when the transfer raises midway (after the HTTP status check),
the call returns `(False, message)` but a partially-written file -- the first
chunk [1, 2, 3] of the six-byte body -- remains visible under the final
filename, contradicting the specification's all-or-nothing requirement. -/
theorem download_image_leaves_partial_file :
    download_image true c3Net c3Image ⟨[]⟩ =
      Except.ok ⟨false, "connection reset", 1, ⟨[("5_abcdefgh.jpg", [1, 2, 3])]⟩⟩ ∧
    generate_filename c3Image = "5_abcdefgh.jpg" ∧
    Disk.pathExists ⟨[("5_abcdefgh.jpg", [1, 2, 3])]⟩ "5_abcdefgh.jpg" = true :=
  ⟨rfl, rfl, rfl⟩

/-! ### Claim C5: existing target file short-circuits the download -/

/-- An image with no URL field at all; its generated filename is
"7_abcdefgh.jpg". -/
def c5Image : Image :=
  { imageId := some "abcdefgh", createdAt := 7 }

/-- A disk already holding the generated target file for `c5Image`. -/
def c5Disk : Disk :=
  ⟨[("7_abcdefgh.jpg", [9])]⟩

/-- Counterexample to C5 as stated: for an image whose URL selection comes up
empty, `download_image` returns `(False, "No URL available")` -- not a skipped
success -- even though the generated target file already exists on disk (the
URL check precedes the existence check in the source).  No network request is
issued either way. -/
theorem download_image_existing_file_not_skipped :
    Disk.pathExists c5Disk (generate_filename c5Image) = true ∧
    download_image true (fun _ => NetResp.httpError "boom") c5Image c5Disk =
      Except.ok ⟨false, "No URL available", 0, c5Disk⟩ :=
  ⟨rfl, rfl⟩

/-- C5 (amended): for every image task with an available (non-empty) URL whose
generated target file already exists on disk, `download_image` returns a
success result marked as skipped, issues no network request, and leaves the
disk unchanged. -/
theorem download_image_skips_existing (downloadBig : Bool) (net : String → NetResp)
    (image : Image) (disk : Disk) (u : String)
    (hu : get_image_url downloadBig image = Except.ok u) (hne : u ≠ "")
    (hex : disk.pathExists (generate_filename image) = true) :
    download_image downloadBig net image disk =
      Except.ok ⟨true, generate_filename image ++ " (skipped, exists)", 0, disk⟩ := by
  unfold download_image
  rw [hu]
  dsimp only
  rw [if_neg hne, if_pos hex]

/-- Witness for the amended C5 on a concrete image and pre-populated disk. -/
theorem download_image_skips_existing_witness :
    download_image true (fun _ => NetResp.httpError "boom")
        { imageId := some "abcdefgh", createdAt := 7, url := some "http-img" }
        ⟨[("7_abcdefgh.jpg", [9])]⟩ =
      Except.ok ⟨true, "7_abcdefgh.jpg (skipped, exists)", 0,
        ⟨[("7_abcdefgh.jpg", [9])]⟩⟩ :=
  download_image_skips_existing true _ _ _ "http-img" rfl (by decide) rfl

/-! ### Claim C10: totality of `download_image` -/

/-- An image whose `big` object is present and truthy but lacks the `url`
key: `image["big"]["url"]` raises `KeyError`. -/
def c10Image : Image :=
  { big := some ⟨none⟩ }

/-- Counterexample to C10 as stated: `download_image` is not total on
arbitrary image dicts -- URL selection happens outside the `try` block, and a
present `big` object without a `url` key makes the call propagate a
`KeyError` instead of returning a `(bool, str)` pair. -/
theorem download_image_propagates_keyerror :
    download_image true (fun _ => NetResp.httpError "boom") c10Image ⟨[]⟩ =
      Except.error "KeyError: url" :=
  rfl

/-- The shape guarantee under which URL selection cannot raise: whenever the
`big` or `thumbnail` object is present, it carries a `url` key. -/
def wellFormedImage (image : Image) : Bool :=
  (match image.big with
   | some r => r.url?.isSome
   | none => true) &&
  (match image.thumbnail with
   | some r => r.url?.isSome
   | none => true)

lemma get_image_url_ok (downloadBig : Bool) (image : Image)
    (hwf : wellFormedImage image = true) :
    ∃ u, get_image_url downloadBig image = Except.ok u := by
  unfold wellFormedImage at hwf
  rw [Bool.and_eq_true] at hwf
  rcases hwf with ⟨hbig, hthumb⟩
  unfold get_image_url
  cases downloadBig <;> cases hb : image.big <;> cases hub : image.urlBig <;>
    cases ht : image.thumbnail
  all_goals rw [hb] at hbig
  all_goals rw [ht] at hthumb
  all_goals dsimp only at hbig hthumb ⊢
  all_goals
    first
    | exact ⟨_, rfl⟩
    | (rcases Option.isSome_iff_exists.mp hbig with ⟨u, hu⟩
       rw [hu]
       exact ⟨u, rfl⟩)
    | (rcases Option.isSome_iff_exists.mp hthumb with ⟨u, hu⟩
       rw [hu]
       exact ⟨u, rfl⟩)

/-- C10 (amended): for every image whose present `big`/`thumbnail` objects
carry a `url` key, `download_image` is total at the Download Engine boundary:
it returns a `(bool, str)` outcome and never propagates an exception -- every
failure during URL selection, network transfer, or file write is caught and
returned in the outcome -- so no such task can abort `download_all`'s
aggregation loop. -/
theorem download_image_total_on_wellformed (downloadBig : Bool)
    (net : String → NetResp) (image : Image) (disk : Disk)
    (hwf : wellFormedImage image = true) :
    ∃ o, download_image downloadBig net image disk = Except.ok o := by
  rcases get_image_url_ok downloadBig image hwf with ⟨u, hu⟩
  unfold download_image
  rw [hu]
  dsimp only
  by_cases h0 : u = ""
  · rw [if_pos h0]; exact ⟨_, rfl⟩
  · rw [if_neg h0]
    by_cases hex : disk.pathExists (generate_filename image) = true
    · rw [if_pos hex]; exact ⟨_, rfl⟩
    · rw [if_neg hex]
      cases net u with
      | httpError e => exact ⟨_, rfl⟩
      | stream chunks failAfter =>
        cases failAfter with
        | none => exact ⟨_, rfl⟩
        | some p =>
          rcases p with ⟨k, e⟩
          exact ⟨_, rfl⟩

/-- Witness for the amended C10 on a concrete well-formed image. -/
theorem download_image_total_on_wellformed_witness :
    ∃ o, download_image true (fun _ => NetResp.stream [[7]] none)
        { imageId := some "abcdefgh", createdAt := 9, big := some ⟨some "http-big"⟩ }
        ⟨[]⟩ = Except.ok o :=
  download_image_total_on_wellformed true _ _ _ (by decide)

/-! ### Run orchestrator: the photo phase of `main`
(famly_downloader.py:1199-1227 with the exception handlers at 1358-1368) -/

/-- `stop_at = last_sync.get(child_id) if not (args.login or args.full) else
None` (famly_downloader.py:1200); `0` models `None`/absent. -/
def stopAtOf (loginOrFull : Bool) (lsMap : List (String × Nat))
    (childId : String) : Nat :=
  if loginOrFull then 0 else (lookupAssoc lsMap childId).getD 0

/-- The per-child photo phase of `main`: fetch, download, then update the
watermark.  `server` abstracts `fetch_image_list`; `download_run` abstracts
`download_all`'s effect, with `Except.error` a fatal (non-per-item) exception
re-raised out of the call (HTTP/network errors are caught by the handlers at
famly_downloader.py:1358-1368, others propagate -- in both cases
`update_last_sync` is never reached).  `store` is the parsed credentials file
that `update_last_sync` operates on.  Mirrors the source order: empty fetch
result => no download and no update; `--dry-run` => no download and no
update; otherwise download, then persist `images[0].get("createdAt")` when
truthy. -/
def photoPhase (server : Nat → Nat → Except String (List Image))
    (download_run : List Image → Except String Stats)
    (dryRun : Bool) (batchSize fuel : Nat) (childId : String)
    (lsMap : List (String × Nat)) (loginOrFull : Bool)
    (store : Option JsonCred) : Option JsonCred :=
  match fetch_all_images server batchSize (stopAtOf loginOrFull lsMap childId) fuel 0 with
  | Except.error _ => store
  | Except.ok (images, _) =>
    if images.isEmpty then store
    else if dryRun = true then store
    else
      match download_run images with
      | Except.error _ => store
      | Except.ok _ =>
        match images.head? with
        | none => store
        | some img =>
          if img.createdAt ≠ 0 then update_last_sync store childId img.createdAt
          else store

/-! Association-list lemmas for `setAssoc`. -/

lemma lookupAssoc_setAssoc_self :
    ∀ (m : List (String × Nat)) (k : String) (v : Nat),
      lookupAssoc (setAssoc m k v) k = some v := by
  intro m k v
  induction m with
  | nil => simp [setAssoc, lookupAssoc]
  | cons p t ih =>
    unfold setAssoc
    by_cases hp : (p.1 == k) = true
    · rw [if_pos hp]
      simp [lookupAssoc]
    · rw [if_neg hp]
      simp only [lookupAssoc]
      rw [if_neg hp]
      exact ih

lemma lookupAssoc_setAssoc_other :
    ∀ (m : List (String × Nat)) (k k' : String) (v : Nat), k' ≠ k →
      lookupAssoc (setAssoc m k v) k' = lookupAssoc m k' := by
  intro m k k' v hne
  have hbeq : (k == k') = false := beq_eq_false_iff_ne.mpr (Ne.symm hne)
  induction m with
  | nil => simp [setAssoc, lookupAssoc, hbeq]
  | cons p t ih =>
    unfold setAssoc
    by_cases hp : (p.1 == k) = true
    · rw [if_pos hp]
      have hp1 : (p.1 == k') = false := by
        rw [beq_iff_eq.mp hp]
        exact hbeq
      simp only [lookupAssoc]
      rw [if_neg (by simp [hbeq]), if_neg (by simp [hp1])]
    · rw [if_neg hp]
      simp only [lookupAssoc]
      by_cases hp' : (p.1 == k') = true
      · rw [if_pos hp', if_pos hp']
      · rw [if_neg hp', if_neg hp']
        exact ih

lemma lookupAssoc_setAssoc_preserves (m : List (String × Nat)) (k c : String)
    (v : Nat) (h : lookupAssoc m c ≠ none) :
    lookupAssoc (setAssoc m k v) c ≠ none := by
  by_cases hck : c = k
  · subst hck
    rw [lookupAssoc_setAssoc_self]
    exact Option.some_ne_none v
  · rw [lookupAssoc_setAssoc_other m k c v hck]
    exact h

/-- A completed, updating photo phase (fetch succeeded with a non-empty
result, no dry run, download succeeded, newest timestamp truthy) sets the
child's `last_sync` entry to `images[0].createdAt`, whatever the
`--login`/`--full` flag was. -/
lemma photoPhase_success_sets_entry
    (server : Nat → Nat → Except String (List Image))
    (download_run : List Image → Except String Stats)
    (loginOrFull : Bool) (batchSize fuel : Nat) (childId : String)
    (lsMap : List (String × Nat)) (d : JsonCred)
    (images : List Image) (n : Nat) (st : Stats) (img : Image)
    (hf : fetch_all_images server batchSize (stopAtOf loginOrFull lsMap childId) fuel 0 =
      Except.ok (images, n))
    (hok : download_run images = Except.ok st)
    (hhead : images.head? = some img) (hc0 : img.createdAt ≠ 0) :
    photoPhase server download_run false batchSize fuel childId lsMap loginOrFull (some d) =
      some { d with
        last_sync := some (setAssoc (d.last_sync.getD []) childId img.createdAt) } := by
  unfold photoPhase
  rw [hf]
  dsimp only
  cases images with
  | nil => simp at hhead
  | cons a t =>
    rw [List.head?_cons, Option.some.injEq] at hhead
    subst hhead
    rw [if_neg (by simp), if_neg (by simp)]
    rw [hok]
    dsimp only
    rw [List.head?_cons]
    dsimp only
    rw [if_pos hc0]
    unfold update_last_sync
    rfl

/-- Whatever the flags and the run's outcome, the photo phase either leaves
the stored file untouched or performs exactly one
`update_last_sync store childId t` with a truthy timestamp `t`. -/
lemma photoPhase_cases
    (server : Nat → Nat → Except String (List Image))
    (download_run : List Image → Except String Stats)
    (dryRun loginOrFull : Bool) (batchSize fuel : Nat) (childId : String)
    (lsMap : List (String × Nat)) (store : Option JsonCred) :
    photoPhase server download_run dryRun batchSize fuel childId lsMap loginOrFull store =
      store ∨
    ∃ t, t ≠ 0 ∧
      photoPhase server download_run dryRun batchSize fuel childId lsMap loginOrFull store =
        update_last_sync store childId t := by
  unfold photoPhase
  cases hf : fetch_all_images server batchSize (stopAtOf loginOrFull lsMap childId) fuel 0 with
  | error e => exact Or.inl rfl
  | ok p =>
    rcases p with ⟨images, n⟩
    dsimp only
    by_cases hemp : images.isEmpty = true
    · rw [if_pos hemp]
      exact Or.inl rfl
    · rw [if_neg hemp]
      cases dryRun with
      | true =>
        rw [if_pos rfl]
        exact Or.inl rfl
      | false =>
        rw [if_neg (by simp)]
        cases hdl : download_run images with
        | error e => exact Or.inl rfl
        | ok st =>
          dsimp only
          cases himg : images.head? with
          | none => exact Or.inl rfl
          | some img =>
            dsimp only
            by_cases hc0 : img.createdAt ≠ 0
            · rw [if_pos hc0]
              exact Or.inr ⟨img.createdAt, hc0, rfl⟩
            · rw [if_neg hc0]
              exact Or.inl rfl

/-- C4: the orchestrator persists the `last_sync` watermark only when the
fetch-and-download phase completes without a fatal (non-per-item) error, and
the persisted value is the `createdAt` of the first (newest) fetched item.
Part 1: a fatal fetch error leaves the stored file unchanged.  Part 2: a
fatal download error leaves it unchanged.  Part 3: on success (non-empty
result, no dry run, truthy newest timestamp) the stored `last_sync` entry for
the child becomes `images[0].createdAt`. -/
theorem main_updates_watermark_only_on_success
    (server : Nat → Nat → Except String (List Image))
    (download_run : List Image → Except String Stats)
    (dryRun loginOrFull : Bool) (batchSize fuel : Nat) (childId : String)
    (lsMap : List (String × Nat)) (store : Option JsonCred) :
    (∀ e, fetch_all_images server batchSize (stopAtOf loginOrFull lsMap childId) fuel 0 =
        Except.error e →
      photoPhase server download_run dryRun batchSize fuel childId lsMap loginOrFull store =
        store) ∧
    (∀ images n e,
      fetch_all_images server batchSize (stopAtOf loginOrFull lsMap childId) fuel 0 =
        Except.ok (images, n) →
      download_run images = Except.error e →
      photoPhase server download_run dryRun batchSize fuel childId lsMap loginOrFull store =
        store) ∧
    (∀ images n st img d,
      fetch_all_images server batchSize (stopAtOf loginOrFull lsMap childId) fuel 0 =
        Except.ok (images, n) →
      dryRun = false →
      download_run images = Except.ok st →
      images.head? = some img →
      img.createdAt ≠ 0 →
      store = some d →
      ∃ d', photoPhase server download_run dryRun batchSize fuel childId lsMap loginOrFull
          store = some d' ∧
        lookupAssoc (d'.last_sync.getD []) childId = some img.createdAt) := by
  refine ⟨?_, ?_, ?_⟩
  · intro e he
    unfold photoPhase
    rw [he]
  · intro images n e hf hd
    unfold photoPhase
    rw [hf]
    dsimp only
    by_cases hemp : images.isEmpty = true
    · rw [if_pos hemp]
    · rw [if_neg hemp]
      cases dryRun with
      | true => rw [if_pos rfl]
      | false =>
        rw [if_neg (by simp)]
        rw [hd]
  · intro images n st img d hf hdry hok hhead hc0 hstore
    subst hdry
    subst hstore
    refine ⟨_, photoPhase_success_sets_entry server download_run loginOrFull batchSize fuel
      childId lsMap d images n st img hf hok hhead hc0, ?_⟩
    dsimp only [Option.getD_some]
    exact lookupAssoc_setAssoc_self _ childId _

/-- A server whose first page is one image with `createdAt = 9` and whose
subsequent pages are empty; used as concrete witness data. -/
def wServer (t _lim : Nat) : Except String (List Image) :=
  Except.ok (if t = 0 then [{ createdAt := 9 }] else [])

/-- A server that always raises (HTTP 500). -/
def errServer (_t _lim : Nat) : Except String (List Image) :=
  Except.error "HTTP 500"

/-- A `download_all` run that completes with one success. -/
def wRun (_images : List Image) : Except String Stats :=
  Except.ok ⟨1, 0, 0⟩

/-- A stored credentials file with two watermarks. -/
def wCred : JsonCred :=
  { last_sync := some [("c", 3), ("x", 5)] }

lemma wServer_sorted : ∀ t lim batch, wServer t lim = Except.ok batch →
    List.Pairwise newerThan batch := by
  intro t lim batch h
  unfold wServer at h
  rw [Except.ok.injEq] at h
  subst h
  by_cases ht : t = 0
  · rw [if_pos ht]
    exact List.pairwise_cons.mpr ⟨by simp, List.Pairwise.nil⟩
  · rw [if_neg ht]
    exact List.Pairwise.nil

lemma wServer_older : ∀ t lim batch, wServer t lim = Except.ok batch → t ≠ 0 →
    ∀ i ∈ batch, i.createdAt < t := by
  intro t lim batch h ht i hi
  unfold wServer at h
  rw [Except.ok.injEq] at h
  subst h
  rw [if_neg ht] at hi
  simp at hi

/-- Witness for C4: a fatal fetch error leaves the store untouched, and a
successful fetch-and-download run persists the newest item's timestamp. -/
theorem main_updates_watermark_only_on_success_witness :
    photoPhase errServer wRun false 100 1 "c" [("c", 3)] false (some wCred) = some wCred ∧
    (∃ d', photoPhase wServer wRun false 100 2 "c" [("c", 3)] false (some wCred) = some d' ∧
      lookupAssoc (d'.last_sync.getD []) "c" = some 9) := by
  refine ⟨?_, ?_⟩
  · exact (main_updates_watermark_only_on_success errServer wRun false false 100 1 "c"
      [("c", 3)] (some wCred)).1 "HTTP 500" rfl
  · exact (main_updates_watermark_only_on_success wServer wRun false false 100 2 "c"
      [("c", 3)] (some wCred)).2.2 [{ createdAt := 9 }] 1 ⟨1, 0, 0⟩ { createdAt := 9 }
      wCred rfl rfl rfl rfl (by decide) rfl

/-! ### Claim C8: watermark monotonicity -/

/-- The server state seen by a later `--full` run: the collection now holds a
single item with `createdAt = 1` (everything newer is gone); it honours both
ordering contracts. -/
def cServer (t _lim : Nat) : Except String (List Image) :=
  Except.ok (if t = 0 then [{ createdAt := 1 }] else [])

/-- A stored credentials file whose watermark for child "c" is 100. -/
def cCred : JsonCred :=
  { last_sync := some [("c", 100)] }

lemma cServer_sorted : ∀ t lim batch, cServer t lim = Except.ok batch →
    List.Pairwise newerThan batch := by
  intro t lim batch h
  unfold cServer at h
  rw [Except.ok.injEq] at h
  subst h
  by_cases ht : t = 0
  · rw [if_pos ht]
    exact List.pairwise_cons.mpr ⟨by simp, List.Pairwise.nil⟩
  · rw [if_neg ht]
    exact List.Pairwise.nil

lemma cServer_older : ∀ t lim batch, cServer t lim = Except.ok batch → t ≠ 0 →
    ∀ i ∈ batch, i.createdAt < t := by
  intro t lim batch h ht i hi
  unfold cServer at h
  rw [Except.ok.injEq] at h
  subst h
  rw [if_neg ht] at hi
  simp at hi

/-- Counterexample to C8 as stated: monotonic non-decrease does not hold
across every successful run.  With `--full` (or `--login`), `stop_at` is
forced to `None` (famly_downloader.py:1200), the full fetch returns whatever
the server now has, and `update_last_sync` unconditionally overwrites
`data["last_sync"][child_id]` (famly_downloader.py:149): against a server
satisfying both ordering contracts of the claim's assumption, a completed
`--full` run rewrites the stored watermark for child "c" from 100 down
to 1. -/
theorem last_sync_full_run_decreases :
    (∀ t lim batch, cServer t lim = Except.ok batch → List.Pairwise newerThan batch) ∧
    (∀ t lim batch, cServer t lim = Except.ok batch → t ≠ 0 →
      ∀ i ∈ batch, i.createdAt < t) ∧
    lookupAssoc (cCred.last_sync.getD []) "c" = some 100 ∧
    photoPhase cServer wRun false 100 2 "c" (cCred.last_sync.getD []) true (some cCred) =
      some { access_token := none, children := none, saved_at := none,
             last_sync := some [("c", 1)] } ∧
    (1 : Nat) < 100 :=
  ⟨cServer_sorted, cServer_older, rfl, rfl, by decide⟩

/-- C8 (amended): per child, across successful incremental runs -- the
default runs, whose `stop_at` is the stored watermark rather than forced to
`None` by `--login`/`--full` -- the persisted `last_sync` entry is
monotonically non-decreasing: with a nonzero stored watermark `w`, under the
server ordering contracts every fetched item is strictly newer than `w`, so
any update strictly increases the entry and any non-updating path leaves it
unchanged (part 1).  A run that completes its fetch-and-download phase with a
non-empty result and a truthy newest timestamp sets the synced child's entry
(part 2), and no child's existing entry is ever removed (part 3) -- so an
entry is absent exactly for a child that never completed a sync.  Under
`--login`/`--full` the watermark is rewritten to the newest item of the full
fetch, which may be older than the stored value. -/
theorem last_sync_monotone_incremental
    (server : Nat → Nat → Except String (List Image))
    (download_run : List Image → Except String Stats)
    (dryRun : Bool) (batchSize fuel : Nat) (childId : String) (d : JsonCred)
    (H1 : ∀ t lim batch, server t lim = Except.ok batch → List.Pairwise newerThan batch)
    (H2 : ∀ t lim batch, server t lim = Except.ok batch → t ≠ 0 →
      ∀ i ∈ batch, i.createdAt < t) :
    (∀ w, lookupAssoc (d.last_sync.getD []) childId = some w → w ≠ 0 →
      ∃ d' w', photoPhase server download_run dryRun batchSize fuel childId
          (d.last_sync.getD []) false (some d) = some d' ∧
        lookupAssoc (d'.last_sync.getD []) childId = some w' ∧ w ≤ w') ∧
    (∀ loginOrFull images n st img,
      fetch_all_images server batchSize
          (stopAtOf loginOrFull (d.last_sync.getD []) childId) fuel 0 =
        Except.ok (images, n) →
      dryRun = false →
      download_run images = Except.ok st →
      images.head? = some img →
      img.createdAt ≠ 0 →
      ∃ d', photoPhase server download_run dryRun batchSize fuel childId
          (d.last_sync.getD []) loginOrFull (some d) = some d' ∧
        lookupAssoc (d'.last_sync.getD []) childId = some img.createdAt) ∧
    (∀ loginOrFull c, lookupAssoc (d.last_sync.getD []) c ≠ none →
      ∀ d', photoPhase server download_run dryRun batchSize fuel childId
          (d.last_sync.getD []) loginOrFull (some d) = some d' →
        lookupAssoc (d'.last_sync.getD []) c ≠ none) := by
  refine ⟨?_, ?_, ?_⟩
  · intro w hw hw0
    have hstop : stopAtOf false (d.last_sync.getD []) childId = w := by
      unfold stopAtOf
      rw [if_neg (by simp), hw]
      rfl
    have key : photoPhase server download_run dryRun batchSize fuel childId
          (d.last_sync.getD []) false (some d) = some d ∨
        ∃ t, w < t ∧ photoPhase server download_run dryRun batchSize fuel childId
            (d.last_sync.getD []) false (some d) =
          some { d with last_sync := some (setAssoc (d.last_sync.getD []) childId t) } := by
      unfold photoPhase
      rw [hstop]
      cases hf : fetch_all_images server batchSize w fuel 0 with
      | error e => exact Or.inl rfl
      | ok p =>
        rcases p with ⟨images, n⟩
        dsimp only
        have hgt : ∀ i ∈ images, w < i.createdAt :=
          (fetch_all_images_invariant server batchSize w H1 H2 fuel 0 images n hf).1 hw0
        by_cases hemp : images.isEmpty = true
        · rw [if_pos hemp]
          exact Or.inl rfl
        · rw [if_neg hemp]
          cases dryRun with
          | true =>
            rw [if_pos rfl]
            exact Or.inl rfl
          | false =>
            rw [if_neg (by simp)]
            cases hdl : download_run images with
            | error e => exact Or.inl rfl
            | ok st =>
              dsimp only
              cases himg : images.head? with
              | none => exact Or.inl rfl
              | some img =>
                dsimp only
                have himgmem : img ∈ images :=
                  List.mem_of_mem_head? (Option.mem_def.mpr himg)
                have hwimg : w < img.createdAt := hgt img himgmem
                rw [if_pos (by omega)]
                unfold update_last_sync
                exact Or.inr ⟨img.createdAt, hwimg, rfl⟩
    rcases key with hkey | ⟨t, hwt, hkey⟩
    · exact ⟨d, w, hkey, hw, Nat.le_refl w⟩
    · refine ⟨_, t, hkey, ?_, Nat.le_of_lt hwt⟩
      dsimp only [Option.getD_some]
      exact lookupAssoc_setAssoc_self _ childId t
  · intro loginOrFull images n st img hf hdry hok hhead hc0
    subst hdry
    refine ⟨_, photoPhase_success_sets_entry server download_run loginOrFull batchSize fuel
      childId (d.last_sync.getD []) d images n st img hf hok hhead hc0, ?_⟩
    dsimp only [Option.getD_some]
    exact lookupAssoc_setAssoc_self _ childId _
  · intro loginOrFull c hc d' hd'
    rcases photoPhase_cases server download_run dryRun loginOrFull batchSize fuel childId
        (d.last_sync.getD []) (some d) with hcase | ⟨t, ht0, hcase⟩
    · rw [hcase, Option.some.injEq] at hd'
      subst hd'
      exact hc
    · rw [hcase] at hd'
      have hred : update_last_sync (some d) childId t =
          some { d with last_sync := some (setAssoc (d.last_sync.getD []) childId t) } := rfl
      rw [hred, Option.some.injEq] at hd'
      subst hd'
      dsimp only [Option.getD_some]
      exact lookupAssoc_setAssoc_preserves _ childId c t hc

/-- Witness for the amended C8 on the concrete one-page server and stored
watermark 3: an incremental run moves child "c" from 3 to 9 (part 1), a
completed `--full` run also sets the entry to 9 (part 2), and the entry of
child "x" survives (part 3). -/
theorem last_sync_monotone_incremental_witness :
    (∃ d' w', photoPhase wServer wRun false 100 2 "c"
        (wCred.last_sync.getD []) false (some wCred) = some d' ∧
      lookupAssoc (d'.last_sync.getD []) "c" = some w' ∧ 3 ≤ w') ∧
    (∃ d', photoPhase wServer wRun false 100 2 "c"
        (wCred.last_sync.getD []) true (some wCred) = some d' ∧
      lookupAssoc (d'.last_sync.getD []) "c" = some 9) ∧
    (∀ c, lookupAssoc (wCred.last_sync.getD []) c ≠ none →
      ∀ d', photoPhase wServer wRun false 100 2 "c"
          (wCred.last_sync.getD []) false (some wCred) = some d' →
        lookupAssoc (d'.last_sync.getD []) c ≠ none) := by
  have h := last_sync_monotone_incremental wServer wRun false 100 2 "c" wCred
    wServer_sorted wServer_older
  exact ⟨h.1 3 (by decide) (by decide),
    h.2.1 true [{ createdAt := 9 }] 1 ⟨1, 0, 0⟩ { createdAt := 9 } rfl rfl rfl rfl
      (by decide),
    h.2.2 false⟩
